import Mathlib

/-!
Verification of the data-collection core of the GutachtenAssist repository
(`src/core/social_media_collector.py`, `src/core/forum_collector.py`,
`src/core/reddit_collector.py`, `social_media_agent.py`).

The Python code is shallowly embedded: each Lean definition mirrors one
Python function or SQL statement.  Timestamps are modelled as natural
numbers (seconds since the epoch); the SQLite `posts` table is modelled as
a list of rows in rowid order.
-/

/-- Mirror of the `SocialMediaPost` dataclass
(`social_media_collector.py`, lines 29-42).  `timestamp` is `Option Nat`
because the column is nullable; `metadata` values are modelled by their
string renderings. -/
structure Post where
  platform : String
  postId : String
  author : String
  content : String
  timestamp : Option Nat
  url : String
  likes : Nat
  shares : Nat
  comments : Nat
  tags : List String
  metadata : List (String × String)
deriving DecidableEq, Repr

/-- The dedup key of the `posts` table: `UNIQUE(platform, post_id)`. -/
def sameIdentity (p q : Post) : Bool :=
  p.platform == q.platform && p.postId == q.postId

/-- One `INSERT OR REPLACE INTO posts ...` statement
(`_store_posts`, lines 181-198): if a row with the same
`(platform, post_id)` exists it is deleted and the new row is inserted
(receiving a fresh rowid, hence appended at the end).  The
`except sqlite3.IntegrityError` branch of `_store_posts` is unreachable
for this constraint because `OR REPLACE` resolves the conflict itself. -/
def insertOrReplace (store : List Post) (p : Post) : List Post :=
  store.filter (fun q => !(sameIdentity q p)) ++ [p]

/-- Mirror of `SocialMediaCollector._store_posts` (lines 176-201): the posts are
written one by one in list order. -/
def storePosts (store : List Post) (posts : List Post) : List Post :=
  posts.foldl insertOrReplace store

/-! ### String matching helpers -/

/-- Tests that the first character list starts the second one. -/
def prefixOfB : List Char → List Char → Bool
  | [], _ => true
  | _ :: _, [] => false
  | a :: as, b :: bs => if a = b then prefixOfB as bs else false

/-- Literal substring containment on character lists. -/
def containsSub (hay needle : List Char) : Bool :=
  (List.range (hay.length + 1)).any fun i => prefixOfB needle (hay.drop i)

/-- Case-insensitive substring match.  This models both the SQLite filter
`content LIKE '%' || kw || '%'` of `get_collected_data` (SQLite's default
`LIKE` folds ASCII case only, as does `Char.toLower`; keywords are treated
as literal text, i.e. posts and keywords are assumed free of the `LIKE`
metacharacters `%` and `_`) and the Python test
`keyword.lower() in text.lower()` of the collectors. -/
def keywordInText (text kw : String) : Bool :=
  containsSub (text.data.map Char.toLower) (kw.data.map Char.toLower)

/-- Mirror of `_matches_keywords` of the collectors
(`forum_collector.py`, lines 399-402): any keyword matching suffices. -/
def matchesKeywords (text : String) (keywords : List String) : Bool :=
  keywords.any fun kw => keywordInText text kw

/-! ### Query engine (`get_collected_data`, lines 203-263) -/

/-- The `WHERE` clause built by `get_collected_data`: each filter is
appended only when the corresponding argument is truthy in Python
(`None` for all four, and additionally the empty list for `keywords` and
the empty string for `platform`, skip the filter).  A `NULL` timestamp
fails either SQL comparison `timestamp >= ?` / `timestamp <= ?`. -/
def queryFilter (platform : Option String) (startDate endDate : Option Nat)
    (keywords : Option (List String)) (p : Post) : Bool :=
  (match platform with
   | none => true
   | some pl => pl.isEmpty || p.platform == pl) &&
  (match startDate with
   | none => true
   | some s => match p.timestamp with
     | none => false
     | some t => decide (s ≤ t)) &&
  (match endDate with
   | none => true
   | some e => match p.timestamp with
     | none => false
     | some t => decide (t ≤ e)) &&
  (let kws := keywords.getD []
   kws.isEmpty || kws.any fun kw => keywordInText p.content kw)

/-- Sort key of `ORDER BY timestamp DESC`: SQLite sorts `NULL` below every
value, so under `DESC` the `NULL` timestamps come last.  `tsKeyLe x y`
says a row with timestamp `x` may precede one with timestamp `y`. -/
def tsKeyLe : Option Nat → Option Nat → Bool
  | some x, some y => decide (y ≤ x)
  | some _, none => true
  | none, some _ => false
  | none, none => true

/-- Row ordering of the query result. -/
def tsLe (a b : Post) : Bool := tsKeyLe a.timestamp b.timestamp

/-- Mirror of `SocialMediaCollector.get_collected_data` (lines 203-263): `SELECT *
FROM posts WHERE ... ORDER BY timestamp DESC`, modelled as filtering the
rows and sorting by the descending-with-NULL-last key. -/
def getCollectedData (store : List Post) (platform : Option String)
    (startDate endDate : Option Nat) (keywords : Option (List String)) : List Post :=
  List.mergeSort (store.filter (queryFilter platform startDate endDate keywords)) tsLe

/-- Propositional reading of the result order: descending timestamps with
unknown (`none`) timestamps last. -/
def descNoneLast : Option Nat → Option Nat → Prop
  | some x, some y => y ≤ x
  | some _, none => True
  | none, some _ => False
  | none, none => True

/-! ### Concrete rows for the C1 evaluation -/

/-- First-written record of the duplicate-write experiment. -/
def c1First : Post :=
  { platform := "forum", postId := "1", author := "alice",
    content := "hello python", timestamp := some 100, url := "http://f/1",
    likes := 5, shares := 0, comments := 0, tags := [], metadata := [] }

/-- Second record with the same `(platform, postId)` identity but
different field values. -/
def c1Second : Post :=
  { platform := "forum", postId := "1", author := "bob",
    content := "goodbye", timestamp := some 200, url := "http://f/1b",
    likes := 7, shares := 1, comments := 2, tags := ["t"], metadata := [] }

/-! ### JSON export (`export_data`, lines 265-290)

`export_data(path, 'json')` serializes `get_collected_data()` (no
filters) with `json.dump([asdict(post) for post in posts], ..., default=str)`.
`default=str` renders the `datetime` timestamp as its decimal-digit
string form; a missing timestamp serializes as `null`. -/

/-- JSON values as written by `json.dump`. -/
inductive Json where
  | str : String → Json
  | num : Nat → Json
  | null : Json
  | arr : List Json → Json
  | obj : List (String × Json) → Json

/-- A decimal digit rendered as a character (code point 48 is `0`). -/
def digitChar (d : Nat) : Char := Char.ofNat (48 + d)

/-- Partial inverse of `digitChar`: code points 48-57 name digits. -/
def digitVal (c : Char) : Option Nat :=
  if 48 ≤ c.toNat ∧ c.toNat ≤ 57 then some (c.toNat - 48) else none

/-- Little-endian decimal digits of a natural number. -/
def toDigitsLE (n : Nat) : List Nat :=
  if h : n < 10 then [n]
  else (n % 10) :: toDigitsLE (n / 10)
decreasing_by
  exact Nat.div_lt_self (by omega) (by omega)

/-- Value of a little-endian digit list. -/
def ofDigitsLE : List Nat → Nat
  | [] => 0
  | d :: ds => d + 10 * ofDigitsLE ds

/-- Digit-string rendering of a timestamp (injective stand-in for
`str(datetime)`). -/
def tsToString (n : Nat) : String :=
  String.mk ((toDigitsLE n).reverse.map digitChar)

/-- All characters read back as digits, or failure. -/
def digitsOfChars : List Char → Option (List Nat)
  | [] => some []
  | c :: cs =>
    match digitVal c, digitsOfChars cs with
    | some d, some ds => some (d :: ds)
    | _, _ => none

/-- Parse a timestamp back from its digit-string rendering. -/
def tsParse (s : String) : Option Nat :=
  match digitsOfChars s.data with
  | some ds => some (ofDigitsLE ds.reverse)
  | none => none

/-- One record as serialized by `json.dump` of `asdict(post)` with `default=str`: one JSON
object per record, fields in dataclass order, timestamp as digit string
or `null`, `tags` as a nested array, `metadata` as a nested object. -/
def postFields (p : Post) : List (String × Json) :=
  [("platform", Json.str p.platform), ("post_id", Json.str p.postId),
    ("author", Json.str p.author), ("content", Json.str p.content),
    ("timestamp", match p.timestamp with
      | some t => Json.str (tsToString t)
      | none => Json.null),
    ("url", Json.str p.url), ("likes", Json.num p.likes),
    ("shares", Json.num p.shares), ("comments", Json.num p.comments),
    ("tags", Json.arr (p.tags.map Json.str)),
    ("metadata", Json.obj (p.metadata.map fun kv => (kv.1, Json.str kv.2)))]

def postToJson (p : Post) : Json := Json.obj (postFields p)

/-- Read a JSON array of strings back. -/
def strListOfJson : List Json → Option (List String)
  | [] => some []
  | Json.str s :: rest =>
    match strListOfJson rest with
    | some ss => some (s :: ss)
    | none => none
  | _ => none

/-- Read a JSON object of string values back. -/
def strPairsOfJson : List (String × Json) → Option (List (String × String))
  | [] => some []
  | (k, Json.str v) :: rest =>
    match strPairsOfJson rest with
    | some ps => some ((k, v) :: ps)
    | none => none
  | _ => none

/-- Read a serialized timestamp back. -/
def tsOfJson : Json → Option (Option Nat)
  | Json.null => some none
  | Json.str s =>
    match tsParse s with
    | some t => some (some t)
    | none => none
  | _ => none

/-- Field access on a re-parsed JSON object (Python dict lookup). -/
def jGet (fields : List (String × Json)) (k : String) : Option Json :=
  match fields.find? fun kv => kv.1 == k with
  | some kv => some kv.2
  | none => none

def strOfJson : Json → Option String
  | Json.str s => some s
  | _ => none

def numOfJson : Json → Option Nat
  | Json.num n => some n
  | _ => none

def arrOfJson : Json → Option (List Json)
  | Json.arr js => some js
  | _ => none

def objOfJson : Json → Option (List (String × Json))
  | Json.obj fields => some fields
  | _ => none

/-- Re-parse one exported record from its JSON object (field access as in
Python after `json.load`). -/
def postOfJson (j : Json) : Option Post :=
  (objOfJson j).bind fun fields =>
  ((jGet fields "platform").bind strOfJson).bind fun platform =>
  ((jGet fields "post_id").bind strOfJson).bind fun postId =>
  ((jGet fields "author").bind strOfJson).bind fun author =>
  ((jGet fields "content").bind strOfJson).bind fun content =>
  ((jGet fields "timestamp").bind tsOfJson).bind fun ts =>
  ((jGet fields "url").bind strOfJson).bind fun url =>
  ((jGet fields "likes").bind numOfJson).bind fun likes =>
  ((jGet fields "shares").bind numOfJson).bind fun shares =>
  ((jGet fields "comments").bind numOfJson).bind fun comments =>
  (((jGet fields "tags").bind arrOfJson).bind strListOfJson).bind fun tags =>
  (((jGet fields "metadata").bind objOfJson).bind strPairsOfJson).bind fun metadata =>
  some { platform := platform, postId := postId, author := author,
         content := content, timestamp := ts, url := url, likes := likes,
         shares := shares, comments := comments, tags := tags,
         metadata := metadata }

/-- Re-parse a whole exported file (a JSON array of records). -/
def postListOfJson : List Json → Option (List Post)
  | [] => some []
  | j :: rest =>
    match postOfJson j, postListOfJson rest with
    | some p, some ps => some (p :: ps)
    | _, _ => none

def postsOfJson : Json → Option (List Post)
  | Json.arr js => postListOfJson js
  | _ => none

/-- Mirror of `SocialMediaCollector.export_data(path, 'json')` (lines 265-278): the
full store contents, read back through the unfiltered query, serialized
as one JSON array. -/
def exportDataJson (store : List Post) : Json :=
  Json.arr ((getCollectedData store none none none none).map postToJson)

/-! ### Collection Coordinator (`collect_data`, lines 107-148)

Each platform's `_collect_from_platform` task either returns that
platform's posts or raises; `asyncio.gather(*tasks,
return_exceptions=True)` captures each task's value or exception
independently and in task order.  A collector's outcome for one
invocation is therefore modelled as `Except Unit (List Post)`. -/

/-- Outcome of one `_collect_from_platform` task: the platform's posts,
or the exception it raised. -/
abbrev CollectorOutcome := Except Unit (List Post)

/-- Mirror of `platform in self.collectors` / `self.collectors[platform]`:
association-list lookup of the enabled collector's outcome. -/
def lookupOutcome (collectors : List (String × CollectorOutcome))
    (p : String) : Option CollectorOutcome :=
  match collectors.find? fun kv => kv.1 == p with
  | some kv => some kv.2
  | none => none

/-- The outcome `_collect_from_platform(p)` would produce (only ever read
for enabled platforms). -/
def outcomeOf (collectors : List (String × CollectorOutcome)) (p : String) :
    CollectorOutcome :=
  (lookupOutcome collectors p).getD (Except.error ())

/-- The `tasks` list of `collect_data` (lines 130-138): one task per
requested platform that has an enabled collector, in request order;
`platform_results = await asyncio.gather(*tasks, return_exceptions=True)`
is the list of their outcomes. -/
def gatherTasks (collectors : List (String × CollectorOutcome))
    (platforms : List String) : List CollectorOutcome :=
  (platforms.filter fun p => (lookupOutcome collectors p).isSome).map
    fun p => outcomeOf collectors p

/-- Python dict assignment `results[platform] = v`: overwrite the value
in place (keeping the key's insertion position) if the key exists, else
append the new entry at the end. -/
def dictSet : List (String × List Post) → String → List Post →
    List (String × List Post)
  | [], k, v => [(k, v)]
  | kv :: m, k, v => if kv.1 == k then (k, v) :: m else kv :: dictSet m k v

/-- Python dict read `results[k]`. -/
def dictGet (m : List (String × List Post)) (k : String) : Option (List Post) :=
  match m.find? fun kv => kv.1 == k with
  | some kv => some kv.2
  | none => none

/-- The result loop of `collect_data` (lines 140-146):
`for i, platform in enumerate(platforms)` — note `i` indexes the full
`platforms` list while `platform_results` holds one entry per *enabled*
requested platform, so `platform_results[i]` is misaligned as soon as a
requested platform has no enabled collector.  `none` models the
`IndexError` escaping `collect_data`. -/
def resultsLoop (collectors : List (String × CollectorOutcome))
    (taskResults : List CollectorOutcome) :
    List String → Nat → List (String × List Post) →
    Option (List (String × List Post))
  | [], _, acc => some acc
  | p :: rest, i, acc =>
    if (lookupOutcome collectors p).isSome then
      match taskResults[i]? with
      | none => none
      | some (Except.error _) =>
        resultsLoop collectors taskResults rest (i + 1) (dictSet acc p [])
      | some (Except.ok posts) =>
        resultsLoop collectors taskResults rest (i + 1) (dictSet acc p posts)
    else resultsLoop collectors taskResults rest (i + 1) acc

/-- Mirror of `SocialMediaCollector.collect_data` (lines 107-148): `platforms=None`
defaults to all enabled collectors; the result is the platform-to-posts
dict, or `none` when the loop raises `IndexError`. -/
def collectData (collectors : List (String × CollectorOutcome))
    (platforms : Option (List String)) : Option (List (String × List Post)) :=
  let ps := platforms.getD (collectors.map Prod.fst)
  resultsLoop collectors (gatherTasks collectors ps) ps 0 []

/-- The entry `collect_data` records for a platform: the collected posts
on success, the empty list when the collector raised. -/
def expectedEntry (o : CollectorOutcome) : List Post :=
  match o with
  | Except.error _ => []
  | Except.ok posts => posts

/-- A concrete forums post for the coordinator scenarios. -/
def forumsPost : Post :=
  { platform := "forums", postId := "f1", author := "carol",
    content := "gaming health", timestamp := some 500, url := "http://x/1",
    likes := 1, shares := 0, comments := 0, tags := [], metadata := [] }

/-- Scenario of the claim: forums succeeds with posts, reddit raises. -/
def c2Collectors : List (String × CollectorOutcome) :=
  [("forums", Except.ok [forumsPost]), ("reddit", Except.error ())]

/-- Only the forums collector is enabled in the C3/C9 scenarios. -/
def forumsOnlyCollectors : List (String × CollectorOutcome) :=
  [("forums", Except.ok [forumsPost])]

/-- Exit status of the one-shot `collect` command
(`social_media_agent.py`: `run_collection`, lines 49-113, and `main`,
lines 250-280): a setup failure or any exception escaping
`run_collection` reaches `main`'s `except Exception` handler, which
calls `sys.exit(1)`; otherwise the command completes with exit code 0
(per-platform failures were already absorbed inside `collect_data`). -/
def runCollectExit (setupFails : Bool)
    (collectors : List (String × CollectorOutcome))
    (platforms : Option (List String)) : Nat :=
  if setupFails then 1
  else match collectData collectors platforms with
    | none => 1
    | some _ => 0

/-! ### Continuous Scheduler (`start_continuous_collection`, lines 331-359)

`while True: try: collect_data(); sleep(interval_minutes * 60)
except KeyboardInterrupt: break except Exception: sleep(300)`.
One loop iteration is driven by the outcome of its `Collecting` phase. -/

/-- Outcome of one collection cycle as seen by the scheduler loop:
normal completion, an escaping exception, or the external interrupt. -/
inductive CycleOutcome where
  | ok
  | err
  | interrupt
deriving DecidableEq

/-- The scheduler loop run against a (finite prefix of a) sequence of
cycle outcomes: returns the list of waits it performed (in seconds) and
whether it terminated (`break`).  Exhausting the outcome list with no
interrupt leaves the loop still running (`false`). -/
def runScheduler (intervalMinutes : Nat) : List CycleOutcome → List Nat × Bool
  | [] => ([], false)
  | CycleOutcome.interrupt :: _ => ([], true)
  | CycleOutcome.ok :: rest =>
    let r := runScheduler intervalMinutes rest
    (intervalMinutes * 60 :: r.1, r.2)
  | CycleOutcome.err :: rest =>
    let r := runScheduler intervalMinutes rest
    (300 :: r.1, r.2)

/-! ### Argument plumbing of continuous mode (C10)

`collect_data` declares defaults `max_posts=1000, time_range=24`
(lines 107-111); `start_continuous_collection` calls
`self.collect_data(platforms=platforms, keywords=keywords)` (line 347),
passing neither limit; `run_collection` in continuous mode
(`social_media_agent.py`, lines 74-80) forwards only `platforms`,
`keywords` and `interval_minutes`. -/

/-- The four arguments one collection cycle passes to `collect_data`. -/
structure CollectArgs where
  platforms : Option (List String)
  keywords : Option (List String)
  maxPosts : Nat
  timeRange : Nat
deriving DecidableEq

/-- Call of `collect_data` with Python default substitution:
`max_posts: int = 1000`, `time_range: int = 24`. -/
def collectDataArgs (platforms keywords : Option (List String))
    (maxPosts timeRange : Option Nat) : CollectArgs :=
  { platforms := platforms, keywords := keywords,
    maxPosts := maxPosts.getD 1000, timeRange := timeRange.getD 24 }

/-- One cycle of `start_continuous_collection` (line 347): only
`platforms` and `keywords` are passed on. -/
def continuousCycleArgs (platforms keywords : Option (List String)) :
    CollectArgs :=
  collectDataArgs platforms keywords none none

/-- The `collect_data` arguments produced by `run_collection`
(lines 74-88): continuous mode delegates to
`start_continuous_collection`, one-shot mode passes the CLI's
`max_posts` and `time_range` through. -/
def runCollectionCycleArgs (platforms keywords : Option (List String))
    (maxPosts timeRange : Nat) (continuous : Bool) : CollectArgs :=
  if continuous then continuousCycleArgs platforms keywords
  else collectDataArgs platforms keywords (some maxPosts) (some timeRange)

/-! ### Source collectors (`forum_collector.py`, `reddit_collector.py`) -/

/-- Mirror of `ForumCollector.collect_posts` (lines 49-79): per-URL scraping with
per-URL budget `max_posts // len(urls)`; a URL whose scrape raises is
logged and skipped; the accumulated list is finally truncated by
`all_posts[:max_posts]`.  The per-URL scrape outcome is a parameter. -/
def forumCollectPosts (scrape : String → Nat → Except Unit (List Post))
    (urls : List String) (maxPosts : Nat) : List Post :=
  (urls.foldl (fun acc url =>
    match scrape url (maxPosts / urls.length) with
    | Except.ok ps => acc ++ ps
    | Except.error _ => acc) []).take maxPosts

/-- The subreddit loop of `RedditCollector.collect_posts` (lines 63-70):
extend, then `break` once `len(posts) >= max_posts`. -/
def redditSubLoop (collectSub : String → Nat → List Post)
    (perSub maxPosts : Nat) : List String → List Post → List Post
  | [], acc => acc
  | s :: rest, acc =>
    let acc' := acc ++ collectSub s perSub
    if maxPosts ≤ acc'.length then acc'
    else redditSubLoop collectSub perSub maxPosts rest acc'

/-- Mirror of `RedditCollector.collect_posts` (lines 40-75): `subreddits` defaults
to `['all']`, per-subreddit budget `max_posts // len(subreddits)`, final
truncation `posts[:max_posts]`. -/
def redditCollectPosts (collectSub : String → Nat → List Post)
    (subreddits : Option (List String)) (maxPosts : Nat) : List Post :=
  let subs := subreddits.getD ["all"]
  (redditSubLoop collectSub (maxPosts / subs.length) maxPosts subs []).take
    maxPosts

/-- One item of the Reddit listing JSON consumed by
`ForumCollector._scrape_reddit_json` (lines 106-167). -/
structure RedditItem where
  created_utc : Nat
  title : String
  selftext : String
  id : String
  author : String
  permalink : String
  score : Nat
  num_comments : Nat
  subreddit : String
deriving DecidableEq, Repr

/-- The `SocialMediaPost` built for a Reddit item (lines 140-157);
non-string metadata entries (`upvote_ratio`, `gilded`, `from_scraper`)
are modelled by their string renderings. -/
def redditPostOfItem (it : RedditItem) : Post :=
  { platform := "reddit", postId := it.id, author := it.author,
    content := it.title ++ "\n\n" ++ it.selftext,
    timestamp := some it.created_utc,
    url := "https://reddit.com" ++ it.permalink,
    likes := it.score, shares := 0, comments := it.num_comments,
    tags := [it.subreddit],
    metadata := [("subreddit", it.subreddit), ("upvote_ratio", "0"),
      ("gilded", "0"), ("from_scraper", "True")] }

/-- The item loop of `_scrape_reddit_json` (lines 126-162): skip items
with `created_time < cutoff_time`, skip keyword misses, append, `break`
at `max_posts`.  Note the only time test is the lower bound against
`cutoff_time`. -/
def scrapeRedditLoop (cutoff : Nat) (keywords : Option (List String))
    (maxPosts : Nat) : List RedditItem → List Post → List Post
  | [], acc => acc
  | it :: rest, acc =>
    if it.created_utc < cutoff then
      scrapeRedditLoop cutoff keywords maxPosts rest acc
    else
      let kws := keywords.getD []
      if !kws.isEmpty &&
          !(matchesKeywords (it.title ++ " " ++ it.selftext) kws) then
        scrapeRedditLoop cutoff keywords maxPosts rest acc
      else
        let acc' := acc ++ [redditPostOfItem it]
        if maxPosts ≤ acc'.length then acc'
        else scrapeRedditLoop cutoff keywords maxPosts rest acc'

/-- Mirror of `ForumCollector._scrape_reddit_json` called at time `now` (seconds):
`cutoff_time = datetime.utcnow() - timedelta(hours=time_range)`. -/
def scrapeRedditJson (now timeRange : Nat) (keywords : Option (List String))
    (maxPosts : Nat) (items : List RedditItem) : List Post :=
  scrapeRedditLoop (now - timeRange * 3600) keywords maxPosts items []

/-- One story row of the Hacker News listing consumed by
`ForumCollector._scrape_hackernews` (lines 169-244); `none` stands for a
row whose per-item parsing raised (caught and skipped). -/
structure HNStory where
  title : String
  id : String
  author : String
  score : Nat
  num_comments : Nat
  url : String
deriving DecidableEq, Repr

/-- The `SocialMediaPost` built for an HN story (lines 218-233): the
listing has no per-story time, so `timestamp = datetime.utcnow()`. -/
def hnPostOfStory (now : Nat) (st : HNStory) : Post :=
  { platform := "hackernews", postId := st.id, author := st.author,
    content := st.title, timestamp := some now, url := st.url,
    likes := st.score, shares := 0, comments := st.num_comments,
    tags := ["hackernews"],
    metadata := [("from_scraper", "True"), ("hn_id", st.id)] }

/-- Mirror of `ForumCollector._scrape_hackernews` (lines 169-244):
`story_rows[:max_posts]`, per-item failures skipped, keyword filter on
the title, no time filter at all (`time_range` is unused). -/
def scrapeHackernews (now : Nat) (keywords : Option (List String))
    (maxPosts : Nat) (stories : List (Option HNStory)) : List Post :=
  (stories.take maxPosts).foldl (fun acc st? =>
    match st? with
    | none => acc
    | some st =>
      let kws := keywords.getD []
      if !kws.isEmpty && !(matchesKeywords st.title kws) then acc
      else acc ++ [hnPostOfStory now st]) []

/-- A Reddit item dated 100 seconds after the call time `now = 1000000`. -/
def futureItem : RedditItem :=
  { created_utc := 1000100, title := "future", selftext := "", id := "fut1",
    author := "dave", permalink := "/r/x/fut1", score := 0,
    num_comments := 0, subreddit := "x" }

theorem tsKeyLe_trans (x y z : Option Nat) (hxy : tsKeyLe x y = true)
    (hyz : tsKeyLe y z = true) : tsKeyLe x z = true := by
  cases x <;> cases y <;> cases z
  all_goals simp [tsKeyLe] at *
  all_goals omega

theorem tsKeyLe_total (x y : Option Nat) : tsKeyLe x y || tsKeyLe y x := by
  cases x <;> cases y
  all_goals simp [tsKeyLe]
  all_goals omega

theorem tsKeyLe_iff (x y : Option Nat) : tsKeyLe x y = true ↔ descNoneLast x y := by
  cases x <;> cases y <;> simp [tsKeyLe, descNoneLast]

/-- C1: the claim says a duplicate `(platform, postId)` write is a no-op
that keeps the first-written field values.  The code executes
`INSERT OR REPLACE`, so writing `c1Second` after `c1First` leaves exactly
one row, but with the second record's field values: the store is
last-write-wins, not first-write-wins, even though the two records share
the dedup identity and differ in content. -/
theorem storePosts_last_write_wins :
    storePosts (storePosts [] [c1First]) [c1Second] = [c1Second] ∧
    sameIdentity c1First c1Second = true ∧ c1First ≠ c1Second := by
  refine ⟨rfl, rfl, ?_⟩
  decide

/-- C5: `get_collected_data(platform, start, end, keywords)` returns
exactly the rows passing the platform equality filter, the timestamp
range filter, and (for non-empty `keywords`) at least one
case-insensitive substring match OR-combined across keywords and
AND-combined with the other filters — and the result is ordered by
timestamp descending with unknown timestamps last. -/
theorem getCollectedData_query_correct (store : List Post)
    (platform : Option String) (startDate endDate : Option Nat)
    (keywords : Option (List String)) :
    List.Perm (getCollectedData store platform startDate endDate keywords)
      (store.filter (queryFilter platform startDate endDate keywords)) ∧
    List.Pairwise (fun a b => descNoneLast a.timestamp b.timestamp)
      (getCollectedData store platform startDate endDate keywords) := by
  constructor
  · exact List.mergeSort_perm _ _
  · have h := List.sorted_mergeSort
      (fun a b c hab hbc => tsKeyLe_trans a.timestamp b.timestamp c.timestamp hab hbc)
      (fun a b => tsKeyLe_total a.timestamp b.timestamp)
      (store.filter (queryFilter platform startDate endDate keywords))
    exact h.imp fun hab => (tsKeyLe_iff _ _).mp hab

theorem digitVal_digitChar (d : Nat) (h : d < 10) :
    digitVal (digitChar d) = some d := by
  interval_cases d <;> rfl

theorem toDigitsLE_lt (n : Nat) : ∀ d ∈ toDigitsLE n, d < 10 := by
  induction n using Nat.strong_induction_on with
  | _ n ih =>
    rw [toDigitsLE]
    split
    · intro d hd
      simp only [List.mem_singleton] at hd
      omega
    · intro d hd
      simp only [List.mem_cons] at hd
      rcases hd with h | h
      · omega
      · exact ih (n / 10) (Nat.div_lt_self (by omega) (by omega)) d h

theorem ofDigits_toDigits (n : Nat) : ofDigitsLE (toDigitsLE n) = n := by
  induction n using Nat.strong_induction_on with
  | _ n ih =>
    rw [toDigitsLE]
    split
    · simp [ofDigitsLE]
    · rw [ofDigitsLE, ih (n / 10) (Nat.div_lt_self (by omega) (by omega))]
      omega

theorem digitsOfChars_map (ds : List Nat) (h : ∀ d ∈ ds, d < 10) :
    digitsOfChars (ds.map digitChar) = some ds := by
  induction ds with
  | nil => rfl
  | cons d ds ih =>
    simp only [List.map_cons, digitsOfChars,
      digitVal_digitChar d (h d (List.mem_cons_self d ds)),
      ih fun x hx => h x (List.mem_cons_of_mem d hx)]

theorem tsParse_tsToString (n : Nat) : tsParse (tsToString n) = some n := by
  have hd : ∀ d ∈ (toDigitsLE n).reverse, d < 10 := by
    intro d hd
    exact toDigitsLE_lt n d (List.mem_reverse.mp hd)
  simp only [tsParse, tsToString, digitsOfChars_map _ hd, List.reverse_reverse,
    ofDigits_toDigits]

theorem strListOfJson_map (ss : List String) :
    strListOfJson (ss.map Json.str) = some ss := by
  induction ss with
  | nil => rfl
  | cons s ss ih => simp [strListOfJson, ih]

theorem strPairsOfJson_map (ps : List (String × String)) :
    strPairsOfJson (ps.map fun kv => (kv.1, Json.str kv.2)) = some ps := by
  induction ps with
  | nil => rfl
  | cons kv ps ih => simp [strPairsOfJson, ih]

theorem jGet_platform (p : Post) :
    jGet (postFields p) "platform" = some (Json.str p.platform) := by
  simp [postFields, jGet, List.find?]

theorem jGet_postId (p : Post) :
    jGet (postFields p) "post_id" = some (Json.str p.postId) := by
  simp [postFields, jGet, List.find?]

theorem jGet_author (p : Post) :
    jGet (postFields p) "author" = some (Json.str p.author) := by
  simp [postFields, jGet, List.find?]

theorem jGet_content (p : Post) :
    jGet (postFields p) "content" = some (Json.str p.content) := by
  simp [postFields, jGet, List.find?]

theorem jGet_timestamp (p : Post) :
    jGet (postFields p) "timestamp" = some (match p.timestamp with
      | some t => Json.str (tsToString t)
      | none => Json.null) := by
  simp [postFields, jGet, List.find?]

theorem jGet_url (p : Post) :
    jGet (postFields p) "url" = some (Json.str p.url) := by
  simp [postFields, jGet, List.find?]

theorem jGet_likes (p : Post) :
    jGet (postFields p) "likes" = some (Json.num p.likes) := by
  simp [postFields, jGet, List.find?]

theorem jGet_shares (p : Post) :
    jGet (postFields p) "shares" = some (Json.num p.shares) := by
  simp [postFields, jGet, List.find?]

theorem jGet_comments (p : Post) :
    jGet (postFields p) "comments" = some (Json.num p.comments) := by
  simp [postFields, jGet, List.find?]

theorem jGet_tags (p : Post) :
    jGet (postFields p) "tags" = some (Json.arr (p.tags.map Json.str)) := by
  simp [postFields, jGet, List.find?]

theorem jGet_metadata (p : Post) :
    jGet (postFields p) "metadata" =
      some (Json.obj (p.metadata.map fun kv => (kv.1, Json.str kv.2))) := by
  simp [postFields, jGet, List.find?]

theorem objOfJson_obj (fs : List (String × Json)) : objOfJson (Json.obj fs) = some fs := rfl

theorem strOfJson_str (s : String) : strOfJson (Json.str s) = some s := rfl

theorem numOfJson_num (n : Nat) : numOfJson (Json.num n) = some n := rfl

theorem arrOfJson_arr (js : List Json) : arrOfJson (Json.arr js) = some js := rfl

theorem tsOfJson_null : tsOfJson Json.null = some none := rfl

theorem tsOfJson_tsToString (t : Nat) :
    tsOfJson (Json.str (tsToString t)) = some (some t) := by
  simp [tsOfJson, tsParse_tsToString]

theorem postOfJson_postToJson (p : Post) : postOfJson (postToJson p) = some p := by
  cases hts : p.timestamp with
  | none =>
    simp only [postOfJson, postToJson, hts, objOfJson_obj, Option.some_bind,
      jGet_platform, jGet_postId, jGet_author, jGet_content, jGet_timestamp,
      jGet_url, jGet_likes, jGet_shares, jGet_comments, jGet_tags,
      jGet_metadata, strOfJson_str, numOfJson_num, arrOfJson_arr,
      tsOfJson_null, strListOfJson_map, strPairsOfJson_map]
    rw [← hts]
  | some t =>
    simp only [postOfJson, postToJson, hts, objOfJson_obj, Option.some_bind,
      jGet_platform, jGet_postId, jGet_author, jGet_content, jGet_timestamp,
      jGet_url, jGet_likes, jGet_shares, jGet_comments, jGet_tags,
      jGet_metadata, strOfJson_str, numOfJson_num, arrOfJson_arr,
      tsOfJson_tsToString, strListOfJson_map, strPairsOfJson_map]
    rw [← hts]

theorem postListOfJson_map (ps : List Post) :
    postListOfJson (ps.map postToJson) = some ps := by
  induction ps with
  | nil => rfl
  | cons p ps ih => simp [postListOfJson, postOfJson_postToJson p, ih]

theorem queryFilter_none (p : Post) : queryFilter none none none none p = true := rfl

/-- C8: exporting the full Store to JSON and re-parsing the file succeeds
and yields exactly the stored records (a permutation of the Store rows,
hence the same set of `(platform, postId)` identities, each with field
values equal to the stored ones). -/
theorem export_json_roundtrip (store : List Post) :
    ∃ posts, postsOfJson (exportDataJson store) = some posts ∧
      List.Perm posts store := by
  refine ⟨getCollectedData store none none none none, ?_, ?_⟩
  · simp [exportDataJson, postsOfJson, postListOfJson_map]
  · have h1 : store.filter (queryFilter none none none none) = store :=
      List.filter_eq_self.mpr fun p _ => queryFilter_none p
    simpa [getCollectedData, h1] using
      List.mergeSort_perm (store.filter (queryFilter none none none none)) tsLe

theorem dictGet_dictSet_self (m : List (String × List Post)) (k : String)
    (v : List Post) : dictGet (dictSet m k v) k = some v := by
  induction m with
  | nil => simp [dictSet, dictGet, List.find?]
  | cons kv m ih =>
    rw [dictSet]
    by_cases hk : kv.1 = k
    · simp [dictGet, List.find?, hk]
    · have hk' : (kv.1 == k) = false := by simpa using hk
      simpa [dictGet, List.find?, hk, hk'] using ih

theorem dictGet_dictSet_ne (m : List (String × List Post)) (k q : String)
    (v : List Post) (hne : q ≠ k) :
    dictGet (dictSet m k v) q = dictGet m q := by
  have hkq : (k == q) = false := by simpa using Ne.symm hne
  induction m with
  | nil => simp [dictSet, dictGet, List.find?, hkq]
  | cons kv m ih =>
    rw [dictSet]
    by_cases hk : kv.1 = k
    · have hq : (kv.1 == q) = false := by
        subst hk
        exact hkq
      simp [dictGet, List.find?, hk, hkq, hq]
    · by_cases h : kv.1 = q
      · simp [dictGet, List.find?, hne, hk, h]
      · have h' : (kv.1 == q) = false := by simpa using h
        simpa [dictGet, List.find?, hk, h'] using ih

theorem resultsLoop_spec (collectors : List (String × CollectorOutcome))
    (taskResults : List CollectorOutcome) :
    ∀ (rest : List String) (i : Nat) (acc : List (String × List Post)),
      (∀ p ∈ rest, (lookupOutcome collectors p).isSome = true) →
      (∀ j : Nat, taskResults[i + j]? =
        (rest[j]?).map fun p => outcomeOf collectors p) →
      ∃ acc', resultsLoop collectors taskResults rest i acc = some acc' ∧
        ∀ q : String, dictGet acc' q =
          if q ∈ rest then some (expectedEntry (outcomeOf collectors q))
          else dictGet acc q
  | [], i, acc, _, _ => ⟨acc, rfl, fun q => by simp⟩
  | p :: rest, i, acc, hEn, hGet => by
    have hp : (lookupOutcome collectors p).isSome = true :=
      hEn p (List.mem_cons_self p rest)
    have hp0 : taskResults[i]? = some (outcomeOf collectors p) := by
      have := hGet 0
      simpa using this
    have hGet' : ∀ j : Nat, taskResults[(i + 1) + j]? =
        (rest[j]?).map fun p => outcomeOf collectors p := by
      intro j
      have := hGet (j + 1)
      have harith : i + (j + 1) = (i + 1) + j := by omega
      rw [harith] at this
      simpa using this
    have hEn' : ∀ p' ∈ rest, (lookupOutcome collectors p').isSome = true :=
      fun p' hp' => hEn p' (List.mem_cons_of_mem p hp')
    have step : resultsLoop collectors taskResults (p :: rest) i acc =
        resultsLoop collectors taskResults rest (i + 1)
          (dictSet acc p (expectedEntry (outcomeOf collectors p))) := by
      rw [resultsLoop, hp0]
      simp only [hp, if_true]
      cases ho : outcomeOf collectors p with
      | error e => rfl
      | ok posts => rfl
    obtain ⟨acc', hrun, hprop⟩ := resultsLoop_spec collectors taskResults rest
      (i + 1) (dictSet acc p (expectedEntry (outcomeOf collectors p))) hEn' hGet'
    refine ⟨acc', by rw [step]; exact hrun, fun q => ?_⟩
    by_cases hqr : q ∈ rest
    · rw [hprop q, if_pos hqr, if_pos (List.mem_cons_of_mem p hqr)]
    · by_cases hqp : q = p
      · subst hqp
        rw [hprop q, if_neg hqr, if_pos (List.mem_cons_self q rest),
          dictGet_dictSet_self]
      · rw [hprop q, if_neg hqr,
          if_neg (by simp [List.mem_cons, hqp, hqr]),
          dictGet_dictSet_ne acc p q _ hqp]

/-- C2: an invocation of `collect_data` over requested platforms that all
have enabled collectors returns a mapping giving each failing platform
the empty list and each succeeding platform exactly its own collector's
posts — one collector's exception does not affect any other entry. -/
theorem collectData_isolation (collectors : List (String × CollectorOutcome))
    (ps : List String)
    (h : ∀ p ∈ ps, (lookupOutcome collectors p).isSome = true) :
    ∃ m, collectData collectors (some ps) = some m ∧
      ∀ p ∈ ps, dictGet m p = some (expectedEntry (outcomeOf collectors p)) := by
  have hfilter : ps.filter (fun p => (lookupOutcome collectors p).isSome) = ps :=
    List.filter_eq_self.mpr h
  have htasks : gatherTasks collectors ps =
      ps.map fun p => outcomeOf collectors p := by
    rw [gatherTasks, hfilter]
  obtain ⟨m, hrun, hprop⟩ := resultsLoop_spec collectors
    (gatherTasks collectors ps) ps 0 [] h
    (by intro j; rw [htasks]; simp [List.getElem?_map])
  refine ⟨m, hrun, fun p hp => ?_⟩
  rw [hprop p, if_pos hp]

theorem collectData_isolation_witness :
    ∃ m, collectData c2Collectors (some ["forums", "reddit"]) = some m ∧
      ∀ p ∈ ["forums", "reddit"],
        dictGet m p = some (expectedEntry (outcomeOf c2Collectors p)) :=
  collectData_isolation c2Collectors ["forums", "reddit"] (by decide)

/-- C3: requesting a platform with no enabled collector is claimed to be
a skipped no-op.  In the code the result loop indexes `platform_results`
(one entry per *enabled* requested platform) by the position in the full
`platforms` list, so requesting `["twitter", "forums"]` with only forums
enabled reads `platform_results[1]` from a one-element list: the
`IndexError` escapes `collect_data` instead of returning
`{"forums": [forumsPost]}`. -/
theorem collectData_crashes_on_disabled_platform :
    collectData forumsOnlyCollectors (some ["twitter", "forums"]) = none := by
  decide

/-- C9: with setup succeeding, only forums enabled, and
`--platforms reddit forums` requested, the forums collection task is
gathered (and succeeds), yet the command exits 1 because the result
loop's `IndexError` escapes after collection has started — contradicting
the claim that a run with a started collection attempt exits 0 with
partial failures reported as warnings. -/
theorem collect_cli_exits_nonzero_after_collection_started :
    runCollectExit false forumsOnlyCollectors (some ["reddit", "forums"]) = 1 ∧
    gatherTasks forumsOnlyCollectors ["reddit", "forums"] =
      [Except.ok [forumsPost]] :=
  ⟨rfl, rfl⟩

/-- C4 (corrected): a cycle exception is caught and followed by a wait of
exactly 300 seconds — a fixed cooldown independent of `interval_minutes`,
not one longer than the normal interval — after which the loop resumes;
a normal cycle is followed by `interval_minutes * 60` seconds; the loop
terminates exactly when the external interrupt arrives. -/
theorem scheduler_fixed_cooldown_and_termination (intervalMinutes : Nat)
    (outcomes : List CycleOutcome) :
    runScheduler intervalMinutes outcomes =
      ((outcomes.takeWhile fun o => o != CycleOutcome.interrupt).map
          fun o => if o = CycleOutcome.ok then intervalMinutes * 60 else 300,
        outcomes.any fun o => o == CycleOutcome.interrupt) := by
  induction outcomes with
  | nil => rfl
  | cons o rest ih =>
    cases o with
    | ok =>
      simp only [runScheduler, ih, List.takeWhile, List.any_cons]
      rfl
    | err =>
      simp only [runScheduler, ih, List.takeWhile, List.any_cons]
      rfl
    | interrupt =>
      simp only [runScheduler, List.takeWhile, List.any_cons]
      rfl

/-- C4 counterexample: at the default `interval_minutes = 60`, the wait
after an error cycle is 300 seconds while the normal interval is
3600 seconds — the cooldown is not strictly longer than the interval. -/
theorem scheduler_cooldown_not_longer_than_interval :
    runScheduler 60 [CycleOutcome.err] = ([300], false) ∧ ¬ 60 * 60 < 300 := by
  decide

/-- C10: in continuous mode every collection cycle runs with the built-in
defaults `max_posts = 1000` and `time_range = 24` hours, whatever
`--max-posts` and `--time-range` were given on the CLI; only the platform
names and keywords are forwarded. -/
theorem continuous_mode_ignores_cli_limits
    (platforms keywords : Option (List String)) (maxPosts timeRange : Nat) :
    runCollectionCycleArgs platforms keywords maxPosts timeRange true =
      { platforms := platforms, keywords := keywords,
        maxPosts := 1000, timeRange := 24 } := rfl

/-- C6: both Source Collectors return at most `maxCount` records, for
every keyword list, budget and time window (the scraping/collecting
bodies are arbitrary parameters here, so the bound holds for all of
them). -/
theorem collectors_respect_max_posts
    (scrape : String → Nat → Except Unit (List Post)) (urls : List String)
    (collectSub : String → Nat → List Post)
    (subreddits : Option (List String)) (maxPosts : Nat) :
    (forumCollectPosts scrape urls maxPosts).length ≤ maxPosts ∧
    (redditCollectPosts collectSub subreddits maxPosts).length ≤ maxPosts := by
  constructor
  · rw [forumCollectPosts]
    simp [List.length_take]
  · rw [redditCollectPosts]
    simp [List.length_take]

theorem scrapeRedditLoop_lower_bound (cutoff : Nat)
    (keywords : Option (List String)) (maxPosts : Nat) :
    ∀ (items : List RedditItem) (acc : List Post),
      (∀ p ∈ acc, ∀ t, p.timestamp = some t → cutoff ≤ t) →
      ∀ p ∈ scrapeRedditLoop cutoff keywords maxPosts items acc,
        ∀ t, p.timestamp = some t → cutoff ≤ t
  | [], acc, hacc => hacc
  | it :: rest, acc, hacc => by
    rw [scrapeRedditLoop]
    by_cases hlt : it.created_utc < cutoff
    · simp only [hlt, if_true]
      exact scrapeRedditLoop_lower_bound cutoff keywords maxPosts rest acc hacc
    · have hacc' : ∀ p ∈ acc ++ [redditPostOfItem it],
          ∀ t, p.timestamp = some t → cutoff ≤ t := by
        intro p hp t ht
        rcases List.mem_append.mp hp with h | h
        · exact hacc p h t ht
        · have hpeq : p = redditPostOfItem it := by simpa using h
          subst hpeq
          have : t = it.created_utc := by
            simpa [redditPostOfItem] using ht.symm
          omega
      simp only [hlt, if_false]
      split
      · exact scrapeRedditLoop_lower_bound cutoff keywords maxPosts rest acc hacc
      · split
        · exact hacc'
        · exact scrapeRedditLoop_lower_bound cutoff keywords maxPosts rest _ hacc'

theorem scrapeHackernews_now (now : Nat) (keywords : Option (List String))
    (maxPosts : Nat) (stories : List (Option HNStory)) :
    ∀ p ∈ scrapeHackernews now keywords maxPosts stories,
      p.timestamp = some now := by
  rw [scrapeHackernews]
  generalize stories.take maxPosts = rows
  have main : ∀ (rows : List (Option HNStory)) (acc : List Post),
      (∀ p ∈ acc, p.timestamp = some now) →
      ∀ p ∈ rows.foldl (fun acc st? =>
        match st? with
        | none => acc
        | some st =>
          let kws := keywords.getD []
          if !kws.isEmpty && !(matchesKeywords st.title kws) then acc
          else acc ++ [hnPostOfStory now st]) acc, p.timestamp = some now := by
    intro rows
    induction rows with
    | nil => intro acc hacc; exact hacc
    | cons st? rows ih =>
      intro acc hacc
      cases st? with
      | none => exact ih acc hacc
      | some st =>
        simp only [List.foldl_cons]
        split
        · exact ih acc hacc
        · refine ih _ ?_
          intro p hp
          rcases List.mem_append.mp hp with h | h
          · exact hacc p h
          · have hpeq : p = hnPostOfStory now st := by simpa using h
            subst hpeq
            rfl
  exact main rows [] (by simp)

/-- C7 (amended): every record a scraper returns with a known timestamp
satisfies the *lower* bound `now - timeWindow ≤ timestamp` (the
reddit-JSON scraper only skips items older than `cutoff_time`; no upper
bound is enforced, so future-dated items are returned), and every record
of the HN scraper is stamped with the call time `now` itself; records
with unknown timestamps may appear regardless of the window. -/
theorem scraper_time_window_lower_bound (now timeRange : Nat)
    (keywords : Option (List String)) (maxPosts : Nat)
    (items : List RedditItem) (stories : List (Option HNStory)) :
    (∀ p ∈ scrapeRedditJson now timeRange keywords maxPosts items,
      ∀ t, p.timestamp = some t → now - timeRange * 3600 ≤ t) ∧
    (∀ p ∈ scrapeHackernews now keywords maxPosts stories,
      p.timestamp = some now) :=
  ⟨scrapeRedditLoop_lower_bound (now - timeRange * 3600) keywords maxPosts
      items [] (by simp),
    scrapeHackernews_now now keywords maxPosts stories⟩

/-- C7 counterexample: with `now = 1000000` and a one-hour window, the
claim asserts every known timestamp lies in `[now - 3600, now]`; the
scraper returns `futureItem`'s record with timestamp `1000100 > now`,
because the code never checks the upper bound. -/
theorem scraper_returns_future_timestamp :
    scrapeRedditJson 1000000 1 none 100 [futureItem] =
      [redditPostOfItem futureItem] ∧
    (redditPostOfItem futureItem).timestamp = some 1000100 ∧
    ¬ 1000100 ≤ 1000000 :=
  ⟨rfl, rfl, by omega⟩

theorem scraper_time_window_lower_bound_witness :
    1000000 - 1 * 3600 ≤ 1000100 :=
  (scraper_time_window_lower_bound 1000000 1 none 100 [futureItem] []).1
    (redditPostOfItem futureItem) (by decide) 1000100 rfl
